import Mathlib

/-
Verification of the SSBtoolkit core (src/lib/ssbtoolkit.py) against its
design specification.  The stateful Python classes are embedded shallowly:
pure numeric code becomes functions over ℚ, external collaborators (the ODE
simulator, SciPy curve_fit / minimize / find_peaks, numpy log10 and power)
become explicit function parameters, and Python error behaviour (TypeError,
AttributeError, the elif validation chain) becomes explicit sum types.
-/

/-! ### Generic numeric helpers -/

/-- Maximum of a list of rationals (np.amax / np.max); 0 on the empty list,
on which numpy would instead raise. -/
def listMax : List ℚ → ℚ
  | [] => 0
  | x :: xs => xs.foldl max x

/-- Minimum of a list of rationals (np.min); 0 on the empty list. -/
def listMin : List ℚ → ℚ
  | [] => 0
  | x :: xs => xs.foldl min x

/-- Round to the nearest integer, ties to even: the rounding used by
Python's built-in `round`. -/
def roundHalfEven (q : ℚ) : ℤ :=
  if q - ⌊q⌋ < 1/2 then ⌊q⌋
  else if 1/2 < q - ⌊q⌋ then ⌊q⌋ + 1
  else if ⌊q⌋ % 2 = 0 then ⌊q⌋ else ⌊q⌋ + 1

/-- Python `round(q, n)` for `n` decimal digits (round half to even). -/
def pyRound (n : ℕ) (q : ℚ) : ℚ :=
  (roundHalfEven (q * 10 ^ n) : ℚ) / 10 ^ n

/-! ### C1 — equilibrium binding solver (spec-modelled) and binding.bind -/

/-- Modelled from the spec: the repository calls `utils.LR_eq_conc`
(its EquilibriumBindingSolver), defined in `src/lib/utils.py`, which is not
among the provided sources.  Per the spec it is the closed-form competitive
one-site binding equilibrium: with `Kd = 10 ^ (-pKd)` in units matching the
concentrations, a zero competitor pKd (the single-ligand sentinel used by
`binding.bind`) degrades it to the classical one-site value
`R * L / (Kd + L)`; a nonzero competitor pKd gives the Gaddum competitive
form `R * L / (Kd * (1 + C / KdC) + L)`.  pKd values are taken as integers
so that `10 ^ (-pKd)` is exact in ℚ. -/
def LR_eq_conc (receptor_conc ligand_conc competitor_conc : ℚ)
    (pkd_ligand pkd_competitor : ℤ) : ℚ :=
  let kd_ligand : ℚ := (10 : ℚ) ^ (-pkd_ligand)
  if pkd_competitor = 0 then
    receptor_conc * ligand_conc / (kd_ligand + ligand_conc)
  else
    let kd_competitor : ℚ := (10 : ℚ) ^ (-pkd_competitor)
    receptor_conc * ligand_conc /
      (kd_ligand * (1 + competitor_conc / kd_competitor) + ligand_conc)

/-- `binding.bind` (ssbtoolkit.py lines 421-425): the solver applied at each
ligand concentration with competitor concentration 0 and competitor pKd 0. -/
def binding_bind (receptor_conc : ℚ) (lig_conc_range : List ℚ)
    (pKd : ℤ) : List ℚ :=
  lig_conc_range.map (fun conc => LR_eq_conc receptor_conc conc 0 pKd 0)

/-! ### C2 / C8 — activation.Analysis and inhibition.Analysis -/

/-- One recorded simulation entry's observable table: observable name to
time series (the `d1` dict of Run without its ligand_conc/time keys). -/
abbrev ObsTable := List (String × List ℚ)

/-- Python `entry['obs_x']`: look an observable's time series up. -/
def lookupObs (entry : ObsTable) (name : String) : List ℚ :=
  (entry.lookup name).getD []

/-- sklearn `minmax_scale` on a 1-d array: `(x - min) / (max - min)`
elementwise; a zero range is replaced by 1 (so constant data maps to 0). -/
def minmaxScale (xs : List ℚ) : List ℚ :=
  xs.map (fun x =>
    if listMax xs - listMin xs = 0 then x - listMin xs
    else (x - listMin xs) / (listMax xs - listMin xs))

/-- The per-concentration reduction loop of Analysis: for each index `i`
below the concentration-range length, `np.amax` of the named observable's
time series in the `i`-th recorded entry. -/
def rawConcMaxima (N : ℕ) (simdata : List ObsTable) (obsName : String) :
    List ℚ :=
  (List.range N).map (fun i => listMax (lookupObs (simdata.getD i []) obsName))

/-- The pathway-dispatch block of `simulation.activation.Analysis`
(ssbtoolkit.py lines 740-761): per-pathway designated metabolite, raw values
are per-concentration maxima, Gi-family data is inverted (`1 - raw`) before
min-max scaling; an unknown pathway raises (here: `none`). -/
def activationReduce (pathway : String) (N : ℕ) (simdata : List ObsTable) :
    Option (List ℚ × List ℚ) :=
  if pathway = "Gi" ∨ pathway = "Gz(Gi)" then
    let raw := rawConcMaxima N simdata ("obs_" ++ "cAMP")
    some (raw, minmaxScale (raw.map (fun n => 1 - n)))
  else if pathway = "Gs" then
    let raw := rawConcMaxima N simdata ("obs_" ++ "cAMP")
    some (raw, minmaxScale raw)
  else if pathway = "Gq" then
    let raw := rawConcMaxima N simdata ("obs_" ++ "IP3")
    some (raw, minmaxScale raw)
  else none

/-- The pathway-dispatch block of `simulation.inhibition.Analysis`
(ssbtoolkit.py lines 1127-1148), a verbatim duplicate of the activation
one. -/
def inhibitionReduce (pathway : String) (N : ℕ) (simdata : List ObsTable) :
    Option (List ℚ × List ℚ) :=
  if pathway = "Gi" ∨ pathway = "Gz(Gi)" then
    let raw := rawConcMaxima N simdata ("obs_" ++ "cAMP")
    some (raw, minmaxScale (raw.map (fun n => 1 - n)))
  else if pathway = "Gs" then
    let raw := rawConcMaxima N simdata ("obs_" ++ "cAMP")
    some (raw, minmaxScale raw)
  else if pathway = "Gq" then
    let raw := rawConcMaxima N simdata ("obs_" ++ "IP3")
    some (raw, minmaxScale raw)
  else none

/-- Spec-side closed pathway kind (design note: tagged-variant dispatch). -/
inductive PathwayKind
  | Gs
  | Gi
  | Gq
deriving DecidableEq

/-- Spec-side designated observable per pathway. -/
def specObservable : PathwayKind → String
  | .Gs => "obs_cAMP"
  | .Gi => "obs_cAMP"
  | .Gq => "obs_IP3"

/-- Spec-side inverse-readout flag: only the inhibitory pathway Gi. -/
def specInverse : PathwayKind → Bool
  | .Gs => false
  | .Gi => true
  | .Gq => false

/-- The supported pathway identifiers of the claim, mapped to kinds. -/
def pathwayKind (pathway : String) : Option PathwayKind :=
  if pathway = "Gs" then some .Gs
  else if pathway = "Gi" then some .Gi
  else if pathway = "Gq" then some .Gq
  else none

/-- Spec-side reduction, written from the spec's words: reduce each
concentration point to the max over time of the designated observable, apply
`1 - raw` first exactly for the inverse-readout pathway, then min-max scale
over this single sweep. -/
def specReduce (k : PathwayKind) (N : ℕ) (simdata : List ObsTable) :
    List ℚ × List ℚ :=
  let raw := (List.range N).map
    (fun i => listMax (lookupObs (simdata.getD i []) (specObservable k)))
  (raw, minmaxScale (if specInverse k then raw.map (fun n => 1 - n) else raw))

/-- The per-ligand loop of activation.Analysis: each ligand's entry is
reduced independently of all other ligands. -/
def activationAnalysisAll (pathway : String) (N : ℕ)
    (ligdata : List (String × List ObsTable)) :
    List (String × Option (List ℚ × List ℚ)) :=
  ligdata.map (fun p => (p.1, activationReduce pathway N p.2))

/-- The per-ligand loop of inhibition.Analysis. -/
def inhibitionAnalysisAll (pathway : String) (N : ℕ)
    (ligdata : List (String × List ObsTable)) :
    List (String × Option (List ℚ × List ℚ)) :=
  ligdata.map (fun p => (p.1, inhibitionReduce pathway N p.2))

/-- One ligand's processed dose entry: the fields of `dose[ligand]` that the
claims address (fitted-curve x/y omitted; they are the external fit's dense
trace). -/
structure DoseEntry where
  raw : List ℚ
  normalized : List ℚ
  ec50 : ℚ
  pec50 : ℚ

/-- One ligand's pass of `simulation.activation.Analysis` (ssbtoolkit.py
lines 730-793): reduce, fit (external `curve_fit`, returning the tuple
(Bottom, Top, EC50, p)), then store `round(popt[2], 5)` under the EC50 key
and `round(-log10(popt[2]*1E-6), 2)` under the pEC50 key; numpy `log10` is
external. -/
def activationAnalysisLigand (curveFitExt : List ℚ → List ℚ → ℚ × ℚ × ℚ × ℚ)
    (log10Ext : ℚ → ℚ) (pathway : String) (lig_conc_range : List ℚ)
    (simdata : List ObsTable) : Option DoseEntry :=
  match activationReduce pathway lig_conc_range.length simdata with
  | none => none
  | some (raw, norm) =>
    let popt := curveFitExt lig_conc_range norm
    some ⟨raw, norm, pyRound 5 popt.2.2.1,
      pyRound 2 (-(log10Ext (popt.2.2.1 * (1/1000000))))⟩

/-- One ligand's pass of `simulation.inhibition.Analysis` (ssbtoolkit.py
lines 1117-1183), duplicate of the activation pass with IC50/pIC50 keys. -/
def inhibitionAnalysisLigand (curveFitExt : List ℚ → List ℚ → ℚ × ℚ × ℚ × ℚ)
    (log10Ext : ℚ → ℚ) (pathway : String) (lig_conc_range : List ℚ)
    (simdata : List ObsTable) : Option DoseEntry :=
  match inhibitionReduce pathway lig_conc_range.length simdata with
  | none => none
  | some (raw, norm) =>
    let popt := curveFitExt lig_conc_range norm
    some ⟨raw, norm, pyRound 5 popt.2.2.1,
      pyRound 2 (-(log10Ext (popt.2.2.1 * (1/1000000))))⟩

/-! ### C4 — the curve-fit call sites' model function and bounds -/

/-- An extended-real bound as appearing in a scipy `bounds=` array. -/
inductive Extended
  | negInf
  | fin (q : ℚ)
  | posInf
deriving DecidableEq

/-- A lower bound is satisfied. -/
def loLe : Extended → ℚ → Prop
  | .negInf, _ => True
  | .fin a, x => a ≤ x
  | .posInf, _ => False

/-- An upper bound is satisfied. -/
def leHi : ℚ → Extended → Prop
  | _, .posInf => True
  | x, .fin b => x ≤ b
  | _, .negInf => False

/-- A parameter vector lies within a scipy bounds pair. -/
def withinBounds (lower upper : List Extended) (params : List ℚ) : Prop :=
  List.Forall₂ loLe lower params ∧ List.Forall₂ leHi params upper

/-- Bounds pair of a curve-fit call. -/
structure FitBounds where
  lower : List Extended
  upper : List Extended

/-- The `bounds=` argument of the activation.Analysis `curve_fit` call
(ssbtoolkit.py line 782), for fitted parameters (Bottom, Top, EC50, p) and
response vector `y = metabolite_conc_norm`. -/
def activationFitBounds (y : List ℚ) : FitBounds :=
  ⟨[.fin (listMin y), .negInf, .negInf, .fin (1/2)],
   [.posInf, .fin (listMax y), .posInf, .fin (5/2)]⟩

/-- The `bounds=` argument of the inhibition.Analysis `curve_fit` call
(ssbtoolkit.py line 1169). -/
def inhibitionFitBounds (y : List ℚ) : FitBounds :=
  ⟨[.fin (listMin y), .negInf, .negInf, .fin (1/2)],
   [.posInf, .fin (listMax y), .posInf, .fin (5/2)]⟩

/-- The `bounds=` argument of the binding.maxbend `curve_fit` call
(ssbtoolkit.py line 445), with `y = binding_data`. -/
def maxbendFitBounds (y : List ℚ) : FitBounds :=
  ⟨[.fin (listMin y), .negInf, .negInf, .fin (1/2)],
   [.posInf, .fin (listMax y), .posInf, .fin (5/2)]⟩

/-- `equation_dose` as defined inside activation.Analysis and
inhibition.Analysis; numpy's real-exponent `np.power` is abstracted as
`npPow`. -/
def equation_dose (npPow : ℚ → ℚ → ℚ) (X Bottom Top EC50 p : ℚ) : ℚ :=
  Bottom + (Top - Bottom) / (1 + npPow (EC50 / X) p)

/-- `sigmoid` as defined inside binding.maxbend (identical shape, the EC
parameter is named Kd there). -/
def maxbendSigmoid (npPow : ℚ → ℚ → ℚ) (X Bottom Top Kd p : ℚ) : ℚ :=
  Bottom + (Top - Bottom) / (1 + npPow (Kd / X) p)

/-- Spec-side model: `y = Bottom + (Top - Bottom) / (1 + (EC/x)^p)`. -/
def specLogistic (npPow : ℚ → ℚ → ℚ) (X Bottom Top EC p : ℚ) : ℚ :=
  Bottom + (Top - Bottom) / (1 + npPow (EC / X) p)

/-- Spec-side bounds: Bottom in [min y, +inf), Top in (-inf, max y],
EC unconstrained, Hill slope p in [1/2, 5/2]. -/
def specBounds (y : List ℚ) (Bottom Top EC p : ℚ) : Prop :=
  listMin y ≤ Bottom ∧ Top ≤ listMax y ∧ 1/2 ≤ p ∧ p ≤ 5/2

/-! ### C5 — activation.Run and inhibition.Run sweep structure -/

/-- One recorded entry of a sweep: the `d1` dict built per concentration
(ligand_conc and time keys, then one time series per declared observable). -/
structure SimRecord where
  ligand_conc : ℚ
  time : List ℚ
  observables : List (String × List ℚ)
deriving DecidableEq

/-- The inner concentration loop of Run: one record per concentration, in
range order; the external ODE-simulator output is `yout` (time series per
concentration and observable name). -/
def sweepLigand (t : List ℚ) (obsNames : List String)
    (yout : ℚ → String → List ℚ) (lig_conc_range : List ℚ) : List SimRecord :=
  lig_conc_range.map (fun conc =>
    ⟨conc, t, obsNames.map (fun o => (o, yout conc o))⟩)

/-- `simulation.activation.Run`'s data collection (ssbtoolkit.py lines
671-704): one entry per ligand, holding that ligand's sweep; the pathway
compilation, equilibrium seeding and ODE integration are inside the external
`yout`, and the time grid `t` (geomspace(1e-5, ttotal, nsteps)) is passed
in explicitly. -/
def activationRun (ligands : List String) (lig_conc_range t : List ℚ)
    (obsNames : List String) (yout : String → ℚ → String → List ℚ) :
    List (String × List SimRecord) :=
  ligands.map (fun ligand =>
    (ligand, sweepLigand t obsNames (yout ligand) lig_conc_range))

/-- `simulation.inhibition.Run`'s data collection (ssbtoolkit.py lines
1062-1089), the same shape over the antagonist list. -/
def inhibitionRun (antagonists : List String) (lig_conc_range t : List ℚ)
    (obsNames : List String) (yout : String → ℚ → String → List ℚ) :
    List (String × List SimRecord) :=
  antagonists.map (fun ligand =>
    (ligand, sweepLigand t obsNames (yout ligand) lig_conc_range))

/-! ### C7 — binding.maxbend -/

/-- `binding.maxbend` (ssbtoolkit.py lines 438-454): fit the sigmoid to
(lig_conc_range, binding_data) (external `curve_fit`), then Nelder-Mead
minimize the analytic derivative `sigmoid_deriv_b` of the fitted curve
(external `minimize`, abstracted as `minimizeNM popt x0`), seeded at
`np.max(xfit)` — which equals the maximum of lig_conc_range, since
`np.geomspace` keeps its two endpoints — and round the minimizer's
solution to 3 decimals.  No bounds are passed to the minimizer. -/
def maxbend (curveFitExt : List ℚ → List ℚ → ℚ × ℚ × ℚ × ℚ)
    (minimizeNM : (ℚ × ℚ × ℚ × ℚ) → ℚ → ℚ)
    (lig_conc_range binding_data : List ℚ) : ℚ :=
  let popt := curveFitExt lig_conc_range binding_data
  pyRound 3 (minimizeNM popt (listMax lig_conc_range))

/-! ### C3 / C10 — simulation.fitModel.Run -/

/-- The Python error kinds the fitModel.Run loop can raise. -/
inductive PyError
  | typeError
  | attributeError
deriving DecidableEq

/-- The observable outcome of the calibration loop: number of calc_ratio
trials, whether the break-on-equality fired, the final seed and the
accumulated `_lst_ratio` / `_lst_seed` trial logs. -/
structure FitResult where
  trials : ℕ
  converged : Bool
  finalSeed : ℚ
  ratios : List ℚ
  seeds : List ℚ
deriving DecidableEq

/-- `obs_curve[obs_peaks][-1] * 1E3`: the value at the last index reported
by the external `scipy.signal.find_peaks`, scaled by 1000 (an empty curve
or peak list, on which Python would raise, defaults to 0). -/
def lastPeakVmax (findPeaksExt : List ℚ → List ℕ) (curve : List ℚ) : ℚ :=
  curve.getD ((findPeaksExt curve).getLastD 0) 0 * 1000

/-- `calc_ratio` (ssbtoolkit.py lines 1509-1546): the perturbed-run last
peak over the baseline-run last peak, rounded to `prec` decimals — the
decimal precision of the experimental target ratio.  `baseCurve` is the
baseline observable time course (simulation 1, computed once), `curveAt s`
the perturbed course for seed `s` (simulation 2, external). -/
def calc_ratio (findPeaksExt : List ℚ → List ℕ) (baseCurve : List ℚ)
    (curveAt : ℚ → List ℚ) (prec : ℕ) (seed : ℚ) : ℚ :=
  pyRound prec
    (lastPeakVmax findPeaksExt (curveAt seed) /
     lastPeakVmax findPeaksExt baseCurve)

/-- The `for idx in range(maxiter)` search loop of fitModel.Run
(ssbtoolkit.py lines 1554-1583), with Python attribute semantics explicit:
`incAttr`/`decAttr` are the `_seed_incrementor`/`_seed_decrementor`
attribute states — `none` for an attribute that was never created (reading
it raises AttributeError), `some none` for one holding `None` (arithmetic
with it raises TypeError), `some (some v)` for a float value. -/
def fitIter (obsRatioAt : ℚ → ℚ) (expTargetRatio : ℚ)
    (incAttr decAttr : Option (Option ℚ)) : ℕ → ℚ → Except PyError FitResult
  | 0, s => .ok ⟨0, false, s, [], []⟩
  | n+1, s =>
    if obsRatioAt s = expTargetRatio then
      .ok ⟨1, true, s, [obsRatioAt s], [s]⟩
    else if obsRatioAt s < expTargetRatio then
      match incAttr with
      | none => .error .attributeError
      | some none => .error .typeError
      | some (some inc) =>
        match fitIter obsRatioAt expTargetRatio incAttr decAttr n (s + inc) with
        | .error e => .error e
        | .ok res => .ok ⟨res.trials + 1, res.converged, res.finalSeed,
            obsRatioAt s :: res.ratios, s :: res.seeds⟩
    else
      match decAttr with
      | none => .error .attributeError
      | some none => .error .typeError
      | some (some dec) =>
        match fitIter obsRatioAt expTargetRatio incAttr decAttr n (s - dec) with
        | .error e => .error e
        | .ok res => .ok ⟨res.trials + 1, res.converged, res.finalSeed,
            obsRatioAt s :: res.ratios, s :: res.seeds⟩

/-- The keyword arguments of fitModel.Run that the claim addresses. -/
structure FitKwargs where
  maxiter : Option ℕ
  seed_incrementor : Option ℚ
  seed_decrementor : Option ℚ

/-- `kwargs.pop(key, dflt)`: the passed value when the key is present,
otherwise the fallback default. -/
def popWithDefault {α : Type} (kw : Option α) (dflt : α) : α :=
  kw.getD dflt

/-- The guarded `if key in kwargs: self._attr = kwargs.pop(key, dflt)`
pattern of fitModel.Run: when the key is absent the pop (and its default)
is never executed and the attribute keeps its prior state `init`. -/
def guardedPop {α : Type} (kw : Option α) (dflt : α)
    (init : Option (Option α)) : Option (Option α) :=
  match kw with
  | some v => some (some (popWithDefault (some v) dflt))
  | none => init

/-- `simulation.fitModel.Run` (ssbtoolkit.py lines 1425-1584) restricted to
the search: kwarg processing for maxiter / seed_incrementor /
seed_decrementor (each guarded by a key-presence test; `__init__` sets
`_maxiter` and `_seed_incrementor` to None but never creates
`_seed_decrementor`), then `range(self._maxiter)` — a TypeError when the
attribute is still None — driving the trial loop. -/
def fitModelRun (kw : FitKwargs) (findPeaksExt : List ℚ → List ℕ)
    (baseCurve : List ℚ) (curveAt : ℚ → List ℚ) (prec : ℕ)
    (expTargetRatio seed : ℚ) : Except PyError FitResult :=
  let maxiterAttr : Option (Option ℕ) := guardedPop kw.maxiter 100 (some none)
  let incAttr : Option (Option ℚ) :=
    guardedPop kw.seed_incrementor (1/10) (some none)
  let decAttr : Option (Option ℚ) :=
    guardedPop kw.seed_decrementor (1/10) none
  match maxiterAttr with
  | none => .error .attributeError
  | some none => .error .typeError
  | some (some m) =>
    fitIter (calc_ratio findPeaksExt baseCurve curveAt prec) expTargetRatio
      incAttr decAttr m seed

/-! ### C9 — activation.Run input validation -/

/-- The TypeError messages of activation.Run's input-check chain. -/
inductive InputErr
  | ligandsUndefined
  | pathwayUndefined
  | affinitiesUndefined
  | ligConcRangeUndefined
  | ttotalUndefined
  | nstepsUndefined
  | receptorConcUndefined
deriving DecidableEq

/-- The `if/elif` input-check chain of `simulation.activation.Run`
(ssbtoolkit.py lines 620-629), in source order; `lig_conc_range_any` models
`self._lig_conc_range.any()`.  The chain returns at the first matching
branch, so the `binding_kinetics and affinities is None` pass-branch skips
every later check. -/
def activationRunInputCheck (ligands : Option (List String))
    (pathway : Option String) (binding_kinetics : Bool)
    (affinities : Option (List ℚ)) (lig_conc_range_any : Bool)
    (ttotal : Option ℕ) (nsteps : Option ℕ) (receptor_conc : Option ℚ) :
    Option InputErr :=
  if ligands = none then some .ligandsUndefined
  else if pathway = none then some .pathwayUndefined
  else if binding_kinetics = false ∧ affinities = none then
    some .affinitiesUndefined
  else if binding_kinetics = true ∧ affinities = none then none
  else if lig_conc_range_any = false then some .ligConcRangeUndefined
  else if ttotal = none then some .ttotalUndefined
  else if nsteps = none then some .nstepsUndefined
  else if receptor_conc = none then some .receptorConcUndefined
  else none

/-! ### Rounding-error bounds used by the theorems -/

theorem roundHalfEven_intCast (z : ℤ) : roundHalfEven (z : ℚ) = z := by
  unfold roundHalfEven
  rw [Int.floor_intCast]
  norm_num

theorem roundHalfEven_ge (q : ℚ) : q - 1/2 ≤ (roundHalfEven q : ℚ) := by
  unfold roundHalfEven
  have hf : (⌊q⌋ : ℚ) ≤ q := Int.floor_le q
  have hf2 : q - 1 < (⌊q⌋ : ℚ) := Int.sub_one_lt_floor q
  split_ifs with h1 h2 h3 <;> push_cast <;> linarith

theorem roundHalfEven_le (q : ℚ) : (roundHalfEven q : ℚ) ≤ q + 1/2 := by
  unfold roundHalfEven
  have hf : (⌊q⌋ : ℚ) ≤ q := Int.floor_le q
  have hf2 : q - 1 < (⌊q⌋ : ℚ) := Int.sub_one_lt_floor q
  split_ifs with h1 h2 h3 <;> push_cast <;> linarith

theorem pyRound_ge (n : ℕ) (q : ℚ) : q - 1 / (2 * 10 ^ n) ≤ pyRound n q := by
  unfold pyRound
  have hpow : (0:ℚ) < 10 ^ n := by positivity
  have h := roundHalfEven_ge (q * 10 ^ n)
  rw [le_div_iff₀ hpow]
  have hmul : (q - 1 / (2 * 10 ^ n)) * 10 ^ n = q * 10 ^ n - 1/2 := by
    field_simp
    ring
  linarith

theorem pyRound_le (n : ℕ) (q : ℚ) : pyRound n q ≤ q + 1 / (2 * 10 ^ n) := by
  unfold pyRound
  have hpow : (0:ℚ) < 10 ^ n := by positivity
  have h := roundHalfEven_le (q * 10 ^ n)
  rw [div_le_iff₀ hpow]
  have hmul : (q + 1 / (2 * 10 ^ n)) * 10 ^ n = q * 10 ^ n + 1/2 := by
    field_simp
    ring
  linarith

/-! ### Theorems for C1 -/

/-- Claim C1, counterexample: with receptor_total 4, ligand concentration 1
and pKd 0 (so Kd = 1), the solver returns 2, which exceeds
min(receptor_total, ligand_conc) = 1; `binding.bind` therefore also returns
an element outside the claimed interval. -/
theorem c1_counterexample :
    binding_bind 4 [1] 0 = [2] ∧ ¬ ((2 : ℚ) ≤ min (4 : ℚ) 1) := by
  constructor
  · norm_num [binding_bind, LR_eq_conc]
  · norm_num

/-- Claim C1 (amended): for non-negative receptor_total, ligand_conc and
competitor_conc and any (integer) pKd values, the solver's result lies in
[0, receptor_total] (the ligand-concentration cap of the original claim does
not hold); consequently every element of the list returned by `binding.bind`
lies in [0, receptor_conc]. -/
theorem c1_occupancy_in_range (R : ℚ) (lig_conc_range : List ℚ) (pKd : ℤ)
    (hR : 0 ≤ R) (hrange : ∀ c ∈ lig_conc_range, 0 ≤ c) :
    (∀ (L C : ℚ), 0 ≤ L → 0 ≤ C → ∀ pl pc : ℤ,
        0 ≤ LR_eq_conc R L C pl pc ∧ LR_eq_conc R L C pl pc ≤ R) ∧
    (∀ y ∈ binding_bind R lig_conc_range pKd, 0 ≤ y ∧ y ≤ R) := by
  have key : ∀ (L C : ℚ), 0 ≤ L → 0 ≤ C → ∀ pl pc : ℤ,
      0 ≤ LR_eq_conc R L C pl pc ∧ LR_eq_conc R L C pl pc ≤ R := by
    intro L C hL hC pl pc
    unfold LR_eq_conc
    have hkd : (0:ℚ) < (10 : ℚ) ^ (-pl) := by positivity
    split_ifs with hpc
    · have hden : (0:ℚ) < (10 : ℚ) ^ (-pl) + L := by linarith
      constructor
      · exact div_nonneg (mul_nonneg hR hL) (le_of_lt hden)
      · rw [div_le_iff₀ hden]
        nlinarith
    · have hkdc : (0:ℚ) < (10 : ℚ) ^ (-pc) := by positivity
      have hone1 : (1:ℚ) ≤ 1 + C / (10 : ℚ) ^ (-pc) := by
        have : (0:ℚ) ≤ C / (10 : ℚ) ^ (-pc) := div_nonneg hC (le_of_lt hkdc)
        linarith
      have hone : (0:ℚ) ≤ 1 + C / (10 : ℚ) ^ (-pc) := by linarith
      have hmono : (10 : ℚ) ^ (-pl) * 1 ≤
          (10 : ℚ) ^ (-pl) * (1 + C / (10 : ℚ) ^ (-pc)) :=
        mul_le_mul_of_nonneg_left hone1 (le_of_lt hkd)
      have hden : (0:ℚ) < (10 : ℚ) ^ (-pl) * (1 + C / (10 : ℚ) ^ (-pc)) + L := by
        rw [mul_one] at hmono
        linarith
      constructor
      · exact div_nonneg (mul_nonneg hR hL) (le_of_lt hden)
      · rw [div_le_iff₀ hden]
        have hterm : (0:ℚ) ≤ R * ((10 : ℚ) ^ (-pl) * (1 + C / (10 : ℚ) ^ (-pc))) :=
          mul_nonneg hR (mul_nonneg (le_of_lt hkd) hone)
        nlinarith
  refine ⟨key, ?_⟩
  intro y hy
  unfold binding_bind at hy
  rcases List.mem_map.mp hy with ⟨c, hc, rfl⟩
  exact key c 0 (hrange c hc) le_rfl pKd 0

/-- Witness for `c1_occupancy_in_range` at receptor_conc 1, range [2],
pKd 3. -/
theorem c1_witness :
    (0 : ℚ) ≤ 1 ∧ (∀ c ∈ ([2] : List ℚ), 0 ≤ c) ∧
      (∀ y ∈ binding_bind 1 [2] 3, 0 ≤ y ∧ y ≤ 1) := by
  refine ⟨by norm_num, by intro c hc; simp at hc; norm_num [hc], ?_⟩
  exact (c1_occupancy_in_range 1 [2] 3 (by norm_num)
    (by intro c hc; simp at hc; norm_num [hc])).2

/-! ### Theorems for C2 -/

/-- Claim C2 (confirmed): for the supported pathways, activation.Analysis
and inhibition.Analysis reduce each concentration point to the time maximum
of the designated observable (obs_cAMP for Gs and Gi, obs_IP3 for Gq),
normalize by min-max scaling of `1 - raw` exactly for the inverse-readout
pathway Gi and of `raw` for Gs and Gq, and each ligand's output in the
full per-ligand map is a function of that ligand's sweep alone. -/
theorem c2_analysis_reduction (pw : String) (k : PathwayKind)
    (hk : pathwayKind pw = some k) (N : ℕ) (simdata : List ObsTable)
    (ligdata : List (String × List ObsTable)) :
    activationReduce pw N simdata = some (specReduce k N simdata) ∧
    inhibitionReduce pw N simdata = some (specReduce k N simdata) ∧
    (∀ p ∈ ligdata,
      (p.1, some (specReduce k N p.2)) ∈ activationAnalysisAll pw N ligdata) ∧
    (∀ p ∈ ligdata,
      (p.1, some (specReduce k N p.2)) ∈ inhibitionAnalysisAll pw N ligdata) := by
  have hA : ∀ sd : List ObsTable,
      activationReduce pw N sd = some (specReduce k N sd) := by
    unfold pathwayKind at hk
    split_ifs at hk with h1 h2 h3
    · injection hk with hk2
      subst hk2
      subst h1
      intro sd
      rfl
    · injection hk with hk2
      subst hk2
      subst h2
      intro sd
      rfl
    · injection hk with hk2
      subst hk2
      subst h3
      intro sd
      rfl
  have hI : ∀ sd : List ObsTable,
      inhibitionReduce pw N sd = some (specReduce k N sd) := by
    intro sd
    have hsame : inhibitionReduce pw N sd = activationReduce pw N sd := rfl
    rw [hsame]
    exact hA sd
  refine ⟨hA simdata, hI simdata, ?_, ?_⟩
  · intro p hp
    unfold activationAnalysisAll
    have h2 : (p.1, activationReduce pw N p.2) ∈
        ligdata.map
          (fun q : String × List ObsTable => (q.1, activationReduce pw N q.2)) :=
      List.mem_map_of_mem _ hp
    rw [hA p.2] at h2
    exact h2
  · intro p hp
    unfold inhibitionAnalysisAll
    have h2 : (p.1, inhibitionReduce pw N p.2) ∈
        ligdata.map
          (fun q : String × List ObsTable => (q.1, inhibitionReduce pw N q.2)) :=
      List.mem_map_of_mem _ hp
    rw [hI p.2] at h2
    exact h2

/-- Witness for `c2_analysis_reduction` on the Gq pathway with a concrete
one-concentration sweep. -/
theorem c2_witness :
    pathwayKind "Gq" = some PathwayKind.Gq ∧
    (activationReduce "Gq" 1 [[("obs_IP3", [1, 2])]] =
      some (specReduce PathwayKind.Gq 1 [[("obs_IP3", [1, 2])]]) ∧
    inhibitionReduce "Gq" 1 [[("obs_IP3", [1, 2])]] =
      some (specReduce PathwayKind.Gq 1 [[("obs_IP3", [1, 2])]]) ∧
    (∀ p ∈ [("L", [[("obs_IP3", [1, 2])]])],
      (p.1, some (specReduce PathwayKind.Gq 1 p.2)) ∈
        activationAnalysisAll "Gq" 1 [("L", [[("obs_IP3", [1, 2])]])]) ∧
    (∀ p ∈ [("L", [[("obs_IP3", [1, 2])]])],
      (p.1, some (specReduce PathwayKind.Gq 1 p.2)) ∈
        inhibitionAnalysisAll "Gq" 1 [("L", [[("obs_IP3", [1, 2])]])])) :=
  ⟨rfl, c2_analysis_reduction "Gq" PathwayKind.Gq rfl 1 [[("obs_IP3", [1, 2])]]
    [("L", [[("obs_IP3", [1, 2])]])]⟩

/-! ### Theorems for C4 -/

/-- Claim C4 (confirmed): every logistic fit of the toolkit uses the model
`y = Bottom + (Top - Bottom) / (1 + (EC/x)^p)` and, at all three call sites
(activation.Analysis, inhibition.Analysis, binding.maxbend), scipy bounds
equivalent to Bottom in [min y, +inf), Top in (-inf, max y], EC
unconstrained, and Hill slope p in [1/2, 5/2], where y is the response
vector being fitted. -/
theorem c4_fit_model_and_bounds (y : List ℚ) (Bottom Top EC p : ℚ)
    (npPow : ℚ → ℚ → ℚ) (X : ℚ) :
    (withinBounds (activationFitBounds y).lower (activationFitBounds y).upper
        [Bottom, Top, EC, p] ↔ specBounds y Bottom Top EC p) ∧
    (withinBounds (inhibitionFitBounds y).lower (inhibitionFitBounds y).upper
        [Bottom, Top, EC, p] ↔ specBounds y Bottom Top EC p) ∧
    (withinBounds (maxbendFitBounds y).lower (maxbendFitBounds y).upper
        [Bottom, Top, EC, p] ↔ specBounds y Bottom Top EC p) ∧
    equation_dose npPow X Bottom Top EC p =
      specLogistic npPow X Bottom Top EC p ∧
    maxbendSigmoid npPow X Bottom Top EC p =
      specLogistic npPow X Bottom Top EC p := by
  refine ⟨?_, ?_, ?_, rfl, rfl⟩ <;>
  · simp only [withinBounds, activationFitBounds, inhibitionFitBounds,
      maxbendFitBounds, specBounds, List.forall₂_cons, List.forall₂_nil_left_iff,
      List.forall₂_nil_right_iff, loLe, leHi, and_true, true_and]
    tauto

/-! ### Theorems for C9 -/

/-- Claim C9 (confirmed): in activation.Run's input validation, when
binding_kinetics is true and affinities is None the elif chain ends at the
pass branch, so no error is raised even with ttotal undefined (None): the
later checks on lig_conc_range, ttotal, nsteps and receptor_conc are
skipped for every such configuration. -/
theorem c9_kinetics_pass_skips_checks (ligands : List String)
    (pathway : String) (lig_conc_range_any : Bool) (nsteps : Option ℕ)
    (receptor_conc : Option ℚ) :
    activationRunInputCheck (some ligands) (some pathway) true none
      lig_conc_range_any none nsteps receptor_conc = none := by
  simp [activationRunInputCheck]

/-! ### Theorems for C5 -/

/-- The inner sweep produces one record per concentration, in range order,
each holding the concentration, the time grid and one series per declared
observable name. -/
theorem sweepLigand_spec (t : List ℚ) (obsNames : List String)
    (yout : ℚ → String → List ℚ) (lig_conc_range : List ℚ) :
    (sweepLigand t obsNames yout lig_conc_range).length =
      lig_conc_range.length ∧
    ∀ j, j < lig_conc_range.length →
      ((sweepLigand t obsNames yout lig_conc_range).getD j
          ⟨0, [], []⟩).ligand_conc = lig_conc_range.getD j 0 ∧
      ((sweepLigand t obsNames yout lig_conc_range).getD j
          ⟨0, [], []⟩).time = t ∧
      ((sweepLigand t obsNames yout lig_conc_range).getD j
          ⟨0, [], []⟩).observables.map Prod.fst = obsNames := by
  constructor
  · simp [sweepLigand]
  · intro j hj
    have hrec : (sweepLigand t obsNames yout lig_conc_range).getD j
        ⟨0, [], []⟩ =
        ⟨lig_conc_range[j], t,
          obsNames.map (fun o => (o, yout lig_conc_range[j] o))⟩ := by
      unfold sweepLigand
      rw [List.getD_eq_getElem?_getD, List.getElem?_map,
        List.getElem?_eq_getElem hj]
      rfl
    have hc : lig_conc_range.getD j 0 = lig_conc_range[j] := by
      rw [List.getD_eq_getElem?_getD, List.getElem?_eq_getElem hj]
      rfl
    rw [hrec, hc]
    refine ⟨rfl, rfl, ?_⟩
    simp only [List.map_map]
    have hfst : (Prod.fst ∘ fun o : String =>
        (o, yout lig_conc_range[j] o)) = id := rfl
    rw [hfst, List.map_id]

/-- Claim C5 (confirmed): a completed activation.Run (resp. inhibition.Run)
over a concentration range of length N records, for each ligand (resp.
antagonist), exactly N entries, one per concentration in range order, each
holding the ligand concentration, the time grid and one time series per
name in the pathway's list_of_observables. -/
theorem c5_run_entries (ligands antagonists : List String)
    (lig_conc_range t : List ℚ) (obsNames : List String)
    (youtA youtI : String → ℚ → String → List ℚ) (ligand : String)
    (hlig : ligand ∈ ligands) (hant : ligand ∈ antagonists) :
    (∃ entries : List SimRecord,
      (ligand, entries) ∈
        activationRun ligands lig_conc_range t obsNames youtA ∧
      entries.length = lig_conc_range.length ∧
      ∀ j, j < lig_conc_range.length →
        (entries.getD j ⟨0, [], []⟩).ligand_conc = lig_conc_range.getD j 0 ∧
        (entries.getD j ⟨0, [], []⟩).time = t ∧
        (entries.getD j ⟨0, [], []⟩).observables.map Prod.fst = obsNames) ∧
    (∃ entries : List SimRecord,
      (ligand, entries) ∈
        inhibitionRun antagonists lig_conc_range t obsNames youtI ∧
      entries.length = lig_conc_range.length ∧
      ∀ j, j < lig_conc_range.length →
        (entries.getD j ⟨0, [], []⟩).ligand_conc = lig_conc_range.getD j 0 ∧
        (entries.getD j ⟨0, [], []⟩).time = t ∧
        (entries.getD j ⟨0, [], []⟩).observables.map Prod.fst = obsNames) := by
  constructor
  · refine ⟨sweepLigand t obsNames (youtA ligand) lig_conc_range, ?_,
      (sweepLigand_spec t obsNames (youtA ligand) lig_conc_range).1,
      (sweepLigand_spec t obsNames (youtA ligand) lig_conc_range).2⟩
    unfold activationRun
    have h2 : (ligand, sweepLigand t obsNames (youtA ligand) lig_conc_range) ∈
        ligands.map (fun x : String =>
          (x, sweepLigand t obsNames (youtA x) lig_conc_range)) :=
      List.mem_map_of_mem _ hlig
    exact h2
  · refine ⟨sweepLigand t obsNames (youtI ligand) lig_conc_range, ?_,
      (sweepLigand_spec t obsNames (youtI ligand) lig_conc_range).1,
      (sweepLigand_spec t obsNames (youtI ligand) lig_conc_range).2⟩
    unfold inhibitionRun
    have h2 : (ligand, sweepLigand t obsNames (youtI ligand) lig_conc_range) ∈
        antagonists.map (fun x : String =>
          (x, sweepLigand t obsNames (youtI x) lig_conc_range)) :=
      List.mem_map_of_mem _ hant
    exact h2

/-- Witness for `c5_run_entries` on a concrete 5-point sweep with one
ligand and one declared observable. -/
theorem c5_witness :
    ("L1" ∈ ["L1"]) ∧
    ((∃ entries : List SimRecord,
      ("L1", entries) ∈ activationRun ["L1"] [1, 2, 3, 4, 5] [0]
        ["obs_cAMP"] (fun _ _ _ => [0]) ∧
      entries.length = ([1, 2, 3, 4, 5] : List ℚ).length ∧
      ∀ j, j < ([1, 2, 3, 4, 5] : List ℚ).length →
        (entries.getD j ⟨0, [], []⟩).ligand_conc =
          ([1, 2, 3, 4, 5] : List ℚ).getD j 0 ∧
        (entries.getD j ⟨0, [], []⟩).time = [0] ∧
        (entries.getD j ⟨0, [], []⟩).observables.map Prod.fst =
          ["obs_cAMP"]) ∧
    (∃ entries : List SimRecord,
      ("L1", entries) ∈ inhibitionRun ["L1"] [1, 2, 3, 4, 5] [0]
        ["obs_cAMP"] (fun _ _ _ => [0]) ∧
      entries.length = ([1, 2, 3, 4, 5] : List ℚ).length ∧
      ∀ j, j < ([1, 2, 3, 4, 5] : List ℚ).length →
        (entries.getD j ⟨0, [], []⟩).ligand_conc =
          ([1, 2, 3, 4, 5] : List ℚ).getD j 0 ∧
        (entries.getD j ⟨0, [], []⟩).time = [0] ∧
        (entries.getD j ⟨0, [], []⟩).observables.map Prod.fst =
          ["obs_cAMP"])) :=
  ⟨by simp, c5_run_entries ["L1"] ["L1"] [1, 2, 3, 4, 5] [0] ["obs_cAMP"]
    (fun _ _ _ => [0]) (fun _ _ _ => [0]) "L1" (by simp) (by simp)⟩

/-! ### Theorems for C7 -/

/-- Claim C7, counterexample: binding.maxbend passes no bounds to the
external Nelder-Mead minimizer, so its result is not constrained to lie
strictly inside (min lig_conc_range, max lig_conc_range): for the
admissible minimizer behaviour that returns its own seed (the objective's
minimum sits at the start point np.max(xfit)), maxbend on the range [1, 2]
returns 2 = max, not a value strictly below the maximum. -/
theorem c7_counterexample :
    maxbend (fun _ _ => (0, 0, 0, 0)) (fun _ x0 => x0) [1, 2] [0, 1] = 2 ∧
    ¬ (maxbend (fun _ _ => (0, 0, 0, 0)) (fun _ x0 => x0) [1, 2] [0, 1] <
        listMax [1, 2]) := by
  have h2 : listMax [1, 2] = 2 := by
    unfold listMax
    norm_num [List.foldl, max_def]
  have h : maxbend (fun _ _ => (0, 0, 0, 0)) (fun _ x0 => x0) [1, 2] [0, 1]
      = 2 := by
    have hstep : maxbend (fun _ _ => (0, 0, 0, 0)) (fun _ x0 => x0)
        [1, 2] [0, 1] = pyRound 3 (listMax [1, 2]) := rfl
    rw [hstep, h2]
    unfold pyRound
    rw [show ((2:ℚ) * 10 ^ (3:ℕ)) = ((2000 : ℤ) : ℚ) by norm_num,
      roundHalfEven_intCast]
    norm_num
  rw [h, h2]
  norm_num

/-- Claim C7 (amended): binding.maxbend returns the external Nelder-Mead
minimizer's solution — seeded at the maximum of the concentration range,
minimizing the fitted curve's analytic derivative — rounded to 3 decimals;
no strict-interior guarantee exists, only the rounding bound: whenever the
minimizer's solution lies in [lo, hi], the returned value lies in
[lo - 1/2000, hi + 1/2000]. -/
theorem c7_maxbend_rounded_minimizer
    (curveFitExt : List ℚ → List ℚ → ℚ × ℚ × ℚ × ℚ)
    (minimizeNM : (ℚ × ℚ × ℚ × ℚ) → ℚ → ℚ)
    (lig_conc_range binding_data : List ℚ) (lo hi : ℚ)
    (h1 : lo ≤ minimizeNM (curveFitExt lig_conc_range binding_data)
        (listMax lig_conc_range))
    (h2 : minimizeNM (curveFitExt lig_conc_range binding_data)
        (listMax lig_conc_range) ≤ hi) :
    maxbend curveFitExt minimizeNM lig_conc_range binding_data =
      pyRound 3 (minimizeNM (curveFitExt lig_conc_range binding_data)
        (listMax lig_conc_range)) ∧
    lo - 1/2000 ≤ maxbend curveFitExt minimizeNM lig_conc_range binding_data ∧
    maxbend curveFitExt minimizeNM lig_conc_range binding_data ≤
      hi + 1/2000 := by
  refine ⟨rfl, ?_, ?_⟩
  · have hlow := pyRound_ge 3
      (minimizeNM (curveFitExt lig_conc_range binding_data)
        (listMax lig_conc_range))
    have he : (1 : ℚ) / (2 * 10 ^ (3:ℕ)) = 1/2000 := by norm_num
    rw [he] at hlow
    unfold maxbend
    linarith
  · have hhigh := pyRound_le 3
      (minimizeNM (curveFitExt lig_conc_range binding_data)
        (listMax lig_conc_range))
    have he : (1 : ℚ) / (2 * 10 ^ (3:ℕ)) = 1/2000 := by norm_num
    rw [he] at hhigh
    unfold maxbend
    linarith

/-- Witness for `c7_maxbend_rounded_minimizer` with the seed-returning
minimizer on the range [1, 2] and the enclosing interval [0, 3]. -/
theorem c7_witness :
    ((0 : ℚ) ≤ listMax [1, 2]) ∧ (listMax [1, 2] ≤ 3) ∧
    (maxbend (fun _ _ => (0, 0, 0, 0)) (fun _ x0 => x0) [1, 2] [0, 1] =
      pyRound 3 (listMax [1, 2]) ∧
    (0 : ℚ) - 1/2000 ≤
      maxbend (fun _ _ => (0, 0, 0, 0)) (fun _ x0 => x0) [1, 2] [0, 1] ∧
    maxbend (fun _ _ => (0, 0, 0, 0)) (fun _ x0 => x0) [1, 2] [0, 1] ≤
      (3 : ℚ) + 1/2000) :=
  ⟨by unfold listMax; norm_num [List.foldl, max_def],
   by unfold listMax; norm_num [List.foldl, max_def],
   c7_maxbend_rounded_minimizer (fun _ _ => (0, 0, 0, 0)) (fun _ x0 => x0)
      [1, 2] [0, 1] 0 3
      (by unfold listMax; norm_num [List.foldl, max_def])
      (by unfold listMax; norm_num [List.foldl, max_def])⟩

/-! ### Theorems for C8 -/

/-- Claim C8 (confirmed): for every ligand processed by activation.Analysis
or inhibition.Analysis, the stored potency equals the fitted EC/IC
parameter (the third fitted component) rounded to 5 decimals in the input
concentration units, and the stored pEC50/pIC50 equals
`-log10(EC * 1e-6)` rounded to 2 decimals (concentrations read as µM). -/
theorem c8_potency_reporting
    (curveFitExt : List ℚ → List ℚ → ℚ × ℚ × ℚ × ℚ) (log10Ext : ℚ → ℚ)
    (pathway : String) (lig_conc_range : List ℚ) (simdata : List ObsTable)
    (entryA entryI : DoseEntry)
    (hA : activationAnalysisLigand curveFitExt log10Ext pathway
        lig_conc_range simdata = some entryA)
    (hI : inhibitionAnalysisLigand curveFitExt log10Ext pathway
        lig_conc_range simdata = some entryI) :
    (entryA.ec50 =
        pyRound 5 (curveFitExt lig_conc_range entryA.normalized).2.2.1 ∧
      entryA.pec50 = pyRound 2 (-(log10Ext
        ((curveFitExt lig_conc_range entryA.normalized).2.2.1 *
          (1/1000000))))) ∧
    (entryI.ec50 =
        pyRound 5 (curveFitExt lig_conc_range entryI.normalized).2.2.1 ∧
      entryI.pec50 = pyRound 2 (-(log10Ext
        ((curveFitExt lig_conc_range entryI.normalized).2.2.1 *
          (1/1000000))))) := by
  constructor
  · unfold activationAnalysisLigand at hA
    cases hred : activationReduce pathway lig_conc_range.length simdata with
    | none =>
      rw [hred] at hA
      cases hA
    | some rn =>
      rw [hred] at hA
      cases rn with
      | mk raw norm =>
        injection hA with hA2
        subst hA2
        exact ⟨rfl, rfl⟩
  · unfold inhibitionAnalysisLigand at hI
    cases hred : inhibitionReduce pathway lig_conc_range.length simdata with
    | none =>
      rw [hred] at hI
      cases hI
    | some rn =>
      rw [hred] at hI
      cases rn with
      | mk raw norm =>
        injection hI with hI2
        subst hI2
        exact ⟨rfl, rfl⟩

/-- Witness for `c8_potency_reporting` on a concrete one-point Gs sweep,
with the external fit returning EC50 = 2 and log10 returning 0. -/
theorem c8_witness :
    (activationAnalysisLigand (fun _ _ => ((0:ℚ), (0:ℚ), (2:ℚ), (1:ℚ)))
        (fun _ => (0:ℚ)) "Gs" [1] [[("obs_cAMP", [1])]] =
      some ⟨[1], [0], pyRound 5 2, pyRound 2 (-(0:ℚ))⟩) ∧
    (inhibitionAnalysisLigand (fun _ _ => ((0:ℚ), (0:ℚ), (2:ℚ), (1:ℚ)))
        (fun _ => (0:ℚ)) "Gs" [1] [[("obs_cAMP", [1])]] =
      some ⟨[1], [0], pyRound 5 2, pyRound 2 (-(0:ℚ))⟩) ∧
    (((⟨[1], [0], pyRound 5 2, pyRound 2 (-(0:ℚ))⟩ : DoseEntry).ec50 =
        pyRound 5 2 ∧
      (⟨[1], [0], pyRound 5 2, pyRound 2 (-(0:ℚ))⟩ : DoseEntry).pec50 =
        pyRound 2 (-(0:ℚ))) ∧
     ((⟨[1], [0], pyRound 5 2, pyRound 2 (-(0:ℚ))⟩ : DoseEntry).ec50 =
        pyRound 5 2 ∧
      (⟨[1], [0], pyRound 5 2, pyRound 2 (-(0:ℚ))⟩ : DoseEntry).pec50 =
        pyRound 2 (-(0:ℚ)))) := by
  have hraw : rawConcMaxima 1 [[("obs_cAMP", [1])]] ("obs_" ++ "cAMP") =
      [1] := rfl
  have hscale : minmaxScale [1] = [0] := by
    unfold minmaxScale listMax listMin
    norm_num
  have hred : activationReduce "Gs" 1 [[("obs_cAMP", [1])]] =
      some ([1], [0]) := by
    have h0 : activationReduce "Gs" 1 [[("obs_cAMP", [1])]] =
        some (rawConcMaxima 1 [[("obs_cAMP", [1])]] ("obs_" ++ "cAMP"),
          minmaxScale (rawConcMaxima 1 [[("obs_cAMP", [1])]]
            ("obs_" ++ "cAMP"))) := rfl
    rw [h0, hraw, hscale]
  have hred2 : inhibitionReduce "Gs" 1 [[("obs_cAMP", [1])]] =
      some ([1], [0]) := by
    have hsame : inhibitionReduce "Gs" 1 [[("obs_cAMP", [1])]] =
        activationReduce "Gs" 1 [[("obs_cAMP", [1])]] := rfl
    rw [hsame]
    exact hred
  have hA : activationAnalysisLigand (fun _ _ => ((0:ℚ), (0:ℚ), (2:ℚ), (1:ℚ)))
      (fun _ => (0:ℚ)) "Gs" [1] [[("obs_cAMP", [1])]] =
      some ⟨[1], [0], pyRound 5 2, pyRound 2 (-(0:ℚ))⟩ := by
    unfold activationAnalysisLigand
    rw [show ([1] : List ℚ).length = 1 from rfl, hred]
  have hI : inhibitionAnalysisLigand (fun _ _ => ((0:ℚ), (0:ℚ), (2:ℚ), (1:ℚ)))
      (fun _ => (0:ℚ)) "Gs" [1] [[("obs_cAMP", [1])]] =
      some ⟨[1], [0], pyRound 5 2, pyRound 2 (-(0:ℚ))⟩ := by
    unfold inhibitionAnalysisLigand
    rw [show ([1] : List ℚ).length = 1 from rfl, hred2]
  refine ⟨hA, hI, ?_⟩
  exact c8_potency_reporting (fun _ _ => ((0:ℚ), (0:ℚ), (2:ℚ), (1:ℚ)))
    (fun _ => (0:ℚ)) "Gs" [1] [[("obs_cAMP", [1])]]
    ⟨[1], [0], pyRound 5 2, pyRound 2 (-(0:ℚ))⟩
    ⟨[1], [0], pyRound 5 2, pyRound 2 (-(0:ℚ))⟩ hA hI

/-! ### Theorems for C3 -/

/-- Loop invariants of the calibration search when maxiter, seed_incrementor
and seed_decrementor all hold values: the loop succeeds, performs at most
`n` trials, logs one ratio and one seed per trial, every logged ratio is the
trial function at the logged seed, the first seed is the start seed, each
later seed is the previous one stepped by +i below the target and -d above
it, convergence means the last logged ratio hit the target, and
non-convergence means no ratio hit the target and all `n` trials ran. -/
theorem fitIter_ok_spec (obsR : ℚ → ℚ) (e i d : ℚ) :
    ∀ (n : ℕ) (s : ℚ), ∃ res : FitResult,
      fitIter obsR e (some (some i)) (some (some d)) n s = .ok res ∧
      res.trials ≤ n ∧
      res.ratios.length = res.trials ∧
      res.seeds.length = res.trials ∧
      (∀ j, j < res.trials → res.ratios.getD j 0 = obsR (res.seeds.getD j 0)) ∧
      (0 < res.trials → res.seeds.getD 0 0 = s) ∧
      (∀ j, j + 1 < res.trials →
        res.seeds.getD (j + 1) 0 =
          (if res.ratios.getD j 0 < e then res.seeds.getD j 0 + i
           else res.seeds.getD j 0 - d)) ∧
      (res.converged = true → 0 < res.trials ∧ res.ratios.getLastD 0 = e) ∧
      (res.converged = false → (∀ r ∈ res.ratios, r ≠ e) ∧
        res.trials = n) := by
  intro n
  induction n with
  | zero =>
    intro s
    refine ⟨⟨0, false, s, [], []⟩, rfl, le_refl 0, rfl, rfl, ?_, ?_, ?_, ?_,
      ?_⟩ <;> dsimp only
    · intro j hj
      exact absurd hj (Nat.not_lt_zero j)
    · intro h
      exact absurd h (lt_irrefl 0)
    · intro j hj
      exact absurd hj (by omega)
    · intro h
      exact Bool.noConfusion h
    · intro _
      exact ⟨fun r hr => absurd hr (List.not_mem_nil r), rfl⟩
  | succ n ih =>
    intro s
    by_cases hr : obsR s = e
    · refine ⟨⟨1, true, s, [obsR s], [s]⟩, ?_, ?_, rfl, rfl,
        ?_, ?_, ?_, ?_, ?_⟩ <;> dsimp only
      · simp only [fitIter]
        rw [if_pos hr]
      · omega
      · intro j hj
        obtain rfl : j = 0 := by omega
        rfl
      · intro _
        rfl
      · intro j hj
        exact absurd hj (by omega)
      · intro _
        exact ⟨by omega, hr⟩
      · intro h
        exact Bool.noConfusion h
    · by_cases hlt : obsR s < e
      · obtain ⟨res2, heq, htr, hlr, hls, hrs, h0, hchain, hconv, hnconv⟩ :=
          ih (s + i)
        refine ⟨⟨res2.trials + 1, res2.converged, res2.finalSeed,
          obsR s :: res2.ratios, s :: res2.seeds⟩, ?_, ?_,
          ?_, ?_, ?_, ?_, ?_, ?_, ?_⟩ <;> dsimp only
        · simp only [fitIter]
          rw [if_neg hr, if_pos hlt, heq]
        · omega
        · simp only [List.length_cons, hlr]
        · simp only [List.length_cons, hls]
        · intro j hj
          cases j with
          | zero => rfl
          | succ j2 =>
            simp only [List.getD_cons_succ]
            exact hrs j2 (by omega)
        · intro _
          rfl
        · intro j hj
          cases j with
          | zero =>
            simp only [List.getD_cons_succ, List.getD_cons_zero]
            rw [if_pos hlt]
            exact h0 (by omega)
          | succ j2 =>
            simp only [List.getD_cons_succ]
            exact hchain j2 (by omega)
        · intro hc
          obtain ⟨hpos, hlast⟩ := hconv hc
          refine ⟨by omega, ?_⟩
          cases hR : res2.ratios with
          | nil =>
            rw [hR] at hlr
            simp at hlr
            omega
          | cons a as =>
            rw [hR] at hlast
            rw [List.getLastD_cons] at hlast
            show (obsR s :: a :: as).getLastD 0 = e
            rw [List.getLastD_cons, List.getLastD_cons]
            exact hlast
        · intro hc
          obtain ⟨hall, htr2⟩ := hnconv hc
          refine ⟨?_, by omega⟩
          intro r hrmem
          rcases List.mem_cons.mp hrmem with hfirst | hmem
          · rw [hfirst]
            exact ne_of_lt hlt
          · exact hall r hmem
      · have hgt : e < obsR s :=
          lt_of_le_of_ne (not_lt.mp hlt) (Ne.symm hr)
        obtain ⟨res2, heq, htr, hlr, hls, hrs, h0, hchain, hconv, hnconv⟩ :=
          ih (s - d)
        refine ⟨⟨res2.trials + 1, res2.converged, res2.finalSeed,
          obsR s :: res2.ratios, s :: res2.seeds⟩, ?_, ?_,
          ?_, ?_, ?_, ?_, ?_, ?_, ?_⟩ <;> dsimp only
        · simp only [fitIter]
          rw [if_neg hr, if_neg hlt, heq]
        · omega
        · simp only [List.length_cons, hlr]
        · simp only [List.length_cons, hls]
        · intro j hj
          cases j with
          | zero => rfl
          | succ j2 =>
            simp only [List.getD_cons_succ]
            exact hrs j2 (by omega)
        · intro _
          rfl
        · intro j hj
          cases j with
          | zero =>
            simp only [List.getD_cons_succ, List.getD_cons_zero]
            rw [if_neg hlt]
            exact h0 (by omega)
          | succ j2 =>
            simp only [List.getD_cons_succ]
            exact hchain j2 (by omega)
        · intro hc
          obtain ⟨hpos, hlast⟩ := hconv hc
          refine ⟨by omega, ?_⟩
          cases hR : res2.ratios with
          | nil =>
            rw [hR] at hlr
            simp at hlr
            omega
          | cons a as =>
            rw [hR] at hlast
            rw [List.getLastD_cons] at hlast
            show (obsR s :: a :: as).getLastD 0 = e
            rw [List.getLastD_cons, List.getLastD_cons]
            exact hlast
        · intro hc
          obtain ⟨hall, htr2⟩ := hnconv hc
          refine ⟨?_, by omega⟩
          intro r hrmem
          rcases List.mem_cons.mp hrmem with hfirst | hmem
          · rw [hfirst]
            exact ne_of_gt hgt
          · exact hall r hmem

/-- Claim C3 (confirmed): with maxiter, seed_incrementor and
seed_decrementor supplied, fitModel.Run's search performs at most maxiter
trials; each trial's logged ratio is calc_ratio — the rounded
last-peak ratio of the perturbed over the baseline curve — at the logged
seed; it stops declaring convergence exactly when a rounded ratio equals
the target (the last logged ratio); otherwise the seed steps by
+seed_incrementor below the target and -seed_decrementor above it; and when
no seed's rounded ratio ever equals the target, the loop ends unconverged
after exactly maxiter trials. -/
theorem c3_fitmodel_search (findPeaksExt : List ℚ → List ℕ)
    (baseCurve : List ℚ) (curveAt : ℚ → List ℚ) (prec : ℕ)
    (expTargetRatio i d seed : ℚ) (m : ℕ) :
    ∃ res : FitResult,
      fitModelRun ⟨some m, some i, some d⟩ findPeaksExt baseCurve curveAt
        prec expTargetRatio seed = .ok res ∧
      res.trials ≤ m ∧
      res.ratios.length = res.trials ∧
      res.seeds.length = res.trials ∧
      (∀ j, j < res.trials → res.ratios.getD j 0 =
        calc_ratio findPeaksExt baseCurve curveAt prec (res.seeds.getD j 0)) ∧
      (0 < res.trials → res.seeds.getD 0 0 = seed) ∧
      (∀ j, j + 1 < res.trials →
        res.seeds.getD (j + 1) 0 =
          (if res.ratios.getD j 0 < expTargetRatio
           then res.seeds.getD j 0 + i else res.seeds.getD j 0 - d)) ∧
      (res.converged = true → 0 < res.trials ∧
        res.ratios.getLastD 0 = expTargetRatio) ∧
      (res.converged = false →
        (∀ r ∈ res.ratios, r ≠ expTargetRatio) ∧ res.trials = m) ∧
      ((∀ q : ℚ, calc_ratio findPeaksExt baseCurve curveAt prec q ≠
          expTargetRatio) →
        res.converged = false ∧ res.trials = m) := by
  obtain ⟨res, heq, h1, h2, h3, h4, h5, h6, h7, h8⟩ :=
    fitIter_ok_spec (calc_ratio findPeaksExt baseCurve curveAt prec)
      expTargetRatio i d m seed
  refine ⟨res, ?_, h1, h2, h3, h4, h5, h6, h7, h8, ?_⟩
  · have hstep : fitModelRun ⟨some m, some i, some d⟩ findPeaksExt baseCurve
        curveAt prec expTargetRatio seed =
        fitIter (calc_ratio findPeaksExt baseCurve curveAt prec)
          expTargetRatio (some (some i)) (some (some d)) m seed := rfl
    rw [hstep, heq]
  · intro hnever
    cases hcv : res.converged with
    | false => exact ⟨rfl, (h8 hcv).2⟩
    | true =>
      obtain ⟨hpos, hlast⟩ := h7 hcv
      exfalso
      have hnil : res.ratios ≠ [] := by
        intro hn
        rw [hn] at h2
        simp at h2
        omega
      have hmem : res.ratios.getLastD 0 ∈ res.ratios := by
        cases hR : res.ratios with
        | nil => exact absurd hR hnil
        | cons a as =>
          rw [List.getLastD_cons]
          exact List.getLastD_mem_cons as a
      obtain ⟨j, hjlen, hjval⟩ := List.mem_iff_getElem.mp hmem
      have hgd : res.ratios.getD j 0 = res.ratios.getLastD 0 := by
        rw [List.getD_eq_getElem?_getD, List.getElem?_eq_getElem hjlen]
        exact hjval
      have hj2 : j < res.trials := by omega
      have := h4 j hj2
      rw [hgd, hlast] at this
      exact hnever (res.seeds.getD j 0) this.symm

/-! ### Theorems for C10 -/

/-- Concrete evaluation of the trial ratio used by the C10 artifacts: with
find_peaks reporting index 0, baseline curve [5] and perturbed curve [10],
the rounded ratio at any seed is 2. -/
theorem calc_ratio_example :
    calc_ratio (fun _ => [0]) [5] (fun _ => [10]) 1 0 = 2 := by
  have h0 : calc_ratio (fun _ => [0]) [5] (fun _ => [10]) 1 0 =
      pyRound 1 ((10 * 1000 : ℚ) / (5 * 1000)) := rfl
  rw [h0, show ((10 * 1000 : ℚ) / (5 * 1000)) = 2 by norm_num]
  unfold pyRound
  rw [show ((2:ℚ) * 10 ^ (1:ℕ)) = ((20 : ℤ) : ℚ) by norm_num,
    roundHalfEven_intCast]
  norm_num

/-- Claim C10 (amended): the in-code fallback defaults of fitModel.Run's
pop-with-default calls are unreachable (the popped value never depends on
the default), a call omitting maxiter leaves the attribute None and fails
with a TypeError at `range(None)`, and a call omitting seed_incrementor
fails with a TypeError at the first under-target seed update (None
arithmetic); but a call omitting seed_decrementor fails at the first
over-target seed update with an AttributeError — `_seed_decrementor` is
never initialized — not the TypeError the original claim states. -/
theorem c10_guarded_defaults (findPeaksExt : List ℚ → List ℕ)
    (baseCurve : List ℚ) (curveAt : ℚ → List ℚ) (prec : ℕ)
    (e1 e2 s1 s2 iv dv : ℚ) (m : ℕ) (hm : 0 < m)
    (h1 : calc_ratio findPeaksExt baseCurve curveAt prec s1 < e1)
    (h2 : e2 < calc_ratio findPeaksExt baseCurve curveAt prec s2) :
    (∀ (α : Type) (kw : Option α) (init : Option (Option α)) (d1 d2 : α),
        guardedPop kw d1 init = guardedPop kw d2 init) ∧
    (∀ io dopt : Option ℚ,
        fitModelRun ⟨none, io, dopt⟩ findPeaksExt baseCurve curveAt prec
          e1 s1 = .error .typeError) ∧
    fitModelRun ⟨some m, none, some dv⟩ findPeaksExt baseCurve curveAt prec
      e1 s1 = .error .typeError ∧
    fitModelRun ⟨some m, some iv, none⟩ findPeaksExt baseCurve curveAt prec
      e2 s2 = .error .attributeError := by
  cases m with
  | zero => exact absurd hm (lt_irrefl 0)
  | succ k =>
    refine ⟨?_, ?_, ?_, ?_⟩
    · intro α kw init d1 d2
      cases kw <;> rfl
    · intro io dopt
      rfl
    · have hstep : fitModelRun ⟨some (Nat.succ k), none, some dv⟩
          findPeaksExt baseCurve curveAt prec e1 s1 =
          fitIter (calc_ratio findPeaksExt baseCurve curveAt prec) e1
            (some none) (some (some dv)) (k + 1) s1 := rfl
      rw [hstep]
      simp only [fitIter]
      rw [if_neg (ne_of_lt h1), if_pos h1]
    · have hstep : fitModelRun ⟨some (Nat.succ k), some iv, none⟩
          findPeaksExt baseCurve curveAt prec e2 s2 =
          fitIter (calc_ratio findPeaksExt baseCurve curveAt prec) e2
            (some (some iv)) none (k + 1) s2 := rfl
      rw [hstep]
      simp only [fitIter]
      rw [if_neg (ne_of_gt h2), if_neg (lt_asymm h2)]

/-- Witness for `c10_guarded_defaults`: concrete curves whose rounded trial
ratio is 2, with targets 3 (under-target) and 1 (over-target). -/
theorem c10_witness :
    0 < 2 ∧
    calc_ratio (fun _ => [0]) [5] (fun _ => [10]) 1 0 < 3 ∧
    (1 : ℚ) < calc_ratio (fun _ => [0]) [5] (fun _ => [10]) 1 0 ∧
    ((∀ (α : Type) (kw : Option α) (init : Option (Option α)) (d1 d2 : α),
        guardedPop kw d1 init = guardedPop kw d2 init) ∧
     (∀ io dopt : Option ℚ,
        fitModelRun ⟨none, io, dopt⟩ (fun _ => [0]) [5] (fun _ => [10]) 1
          3 0 = .error .typeError) ∧
     fitModelRun ⟨some 2, none, some 1⟩ (fun _ => [0]) [5] (fun _ => [10]) 1
       3 0 = .error .typeError ∧
     fitModelRun ⟨some 2, some 1, none⟩ (fun _ => [0]) [5] (fun _ => [10]) 1
       1 0 = .error .attributeError) := by
  refine ⟨by norm_num, by rw [calc_ratio_example]; norm_num,
    by rw [calc_ratio_example]; norm_num, ?_⟩
  exact c10_guarded_defaults (fun _ => [0]) [5] (fun _ => [10]) 1 3 1 0 0 1 1
    2 (by norm_num) (by rw [calc_ratio_example]; norm_num)
    (by rw [calc_ratio_example]; norm_num)

/-- Claim C10, counterexample: a concrete fitModel.Run call that omits
seed_decrementor and whose first trial comes out above the target raises an
AttributeError (the attribute was never created by `__init__`), not the
TypeError the claim asserts. -/
theorem c10_counterexample :
    fitModelRun ⟨some 3, some (1/10), none⟩ (fun _ => [0]) [5]
      (fun _ => [10]) 1 1 0 = .error .attributeError ∧
    (Except.error PyError.attributeError : Except PyError FitResult) ≠
      Except.error PyError.typeError := by
  constructor
  · have hstep : fitModelRun ⟨some 3, some (1/10), none⟩ (fun _ => [0]) [5]
        (fun _ => [10]) 1 1 0 =
        fitIter (calc_ratio (fun _ => [0]) [5] (fun _ => [10]) 1) 1
          (some (some (1/10))) none 3 0 := rfl
    rw [hstep]
    show fitIter (calc_ratio (fun _ => [0]) [5] (fun _ => [10]) 1) 1
        (some (some (1/10))) none (2 + 1) 0 = .error .attributeError
    simp only [fitIter]
    rw [calc_ratio_example]
    rw [if_neg (by norm_num : ¬(2:ℚ) = 1), if_neg (by norm_num : ¬(2:ℚ) < 1)]
  · intro h
    exact PyError.noConfusion (Except.error.inj h)
